import Mathlib

/-!
Shallow embedding of `src/unix.rs` of the rust-listenfd crate.

The file has two halves:
* the activation protocol reader `get_fds`, modelled as a function on an
  explicit process state (association list of environment variables plus
  the process id);
* the descriptor classifier and ownership converter
  (`is_sock`, `validate_socket`, `mark_cloexec`, `make_tcp_listener`,
  `make_unix_listener`, `make_udp_socket`, `make_unix_datagram`,
  `make_custom`), modelled over an explicit record of the OS-observable
  facts about one descriptor.

Machine integers (`i32`) are modelled as `Int` with explicit two's
complement wrapping where the source can overflow.
-/

namespace ListenFd

/-! ## Integer model: Rust `i32` parsing and wrapping -/

/-- Two's complement wrap of an integer into the `i32` range,
mirroring release-mode overflow semantics of Rust addition. -/
def wrap32 (n : Int) : Int :=
  (n + 2 ^ 31) % 2 ^ 32 - 2 ^ 31

/-- Model of Rust `str::parse::<i32>`: an optional single sign character
followed by one or more ASCII digits, with the value required to fit in
the `i32` range; anything else fails. -/
def parseI32 (s : String) : Option Int :=
  match s.data with
  | [] => none
  | c :: rest =>
    let signed : Bool × List Char :=
      if c = '-' then (true, rest)
      else if c = '+' then (false, rest)
      else (false, c :: rest)
    match signed with
    | (neg, digits) =>
      if digits = [] then none
      else if digits.all (fun d => d.isDigit) then
        let mag : Nat := digits.foldl (fun acc d => acc * 10 + (d.toNat - 48)) 0
        let v : Int := if neg then -(mag : Int) else (mag : Int)
        if -(2 ^ 31) ≤ v ∧ v ≤ 2 ^ 31 - 1 then some v else none
      else none

/-- Model of Rust `str::parse::<NonZeroI32>`: parse as `i32`, then
reject zero. -/
def parseNonZeroI32 (s : String) : Option Int :=
  (parseI32 s).bind (fun n => if n = 0 then none else some n)

/-! ## Process state: environment variables and pid -/

/-- Environment as an association list from variable names to values
(`env::var` / `env::remove_var`). -/
def Env : Type := List (String × String)

/-- Model of `env::var` restricted to presence: the value of the first
binding of `k`, if any. -/
def envGet (e : Env) (k : String) : Option String :=
  (List.find? (fun p => p.1 = k) e).map Prod.snd

/-- Model of `env::remove_var`: drop every binding of `k`. -/
def envRemove (e : Env) (k : String) : Env :=
  List.filter (fun p => ¬ p.1 = k) e

/-- The process-global state `get_fds` reads and mutates: the
environment plus the current process id (`rustix::process::getpid`,
a nonzero `i32` for a real process). -/
structure SysEnv where
  vars : Env
  pid : Int

/-- The authorization check on `LISTEN_PID` performed by `get_fds`:
absent, or present but empty, or parsing (as `NonZeroI32`) to exactly
the current pid. -/
def listenPidOk (s : SysEnv) : Bool :=
  match envGet s.vars "LISTEN_PID" with
  | none => true
  | some "" => true
  | some val => parseNonZeroI32 val = some s.pid

/-- The descriptor values built on the authorized path:
`(0..count).map(|offset| 3 + offset)` over `i32`, with two's complement
wrapping of the addition. For `count <= 0` the Rust range is empty. -/
def listenRange (count : Int) : List Int :=
  if count ≤ 0 then []
  else (List.range count.toNat).map (fun (offset : Nat) => wrap32 (3 + (offset : Int)))

/-- Model of `get_fds`: reads `LISTEN_FDS`; if it parses as an `i32`,
checks `LISTEN_PID`, removes both variables, and on authorization
returns the descriptor list. Returns the outcome together with the
mutated process state. -/
def get_fds (s : SysEnv) : Option (List Int) × SysEnv :=
  match (envGet s.vars "LISTEN_FDS").bind parseI32 with
  | none => (none, s)
  | some count =>
    let ok := listenPidOk s
    let vars2 := envRemove (envRemove s.vars "LISTEN_PID") "LISTEN_FDS"
    let s2 : SysEnv := { vars := vars2, pid := s.pid }
    if ok then (some (listenRange count), s2) else (none, s2)

/-! ## Descriptor classifier and ownership converter -/

/-- Address families relevant to the crate (`rustix::net::AddressFamily`);
`other n` stands for any further numeric family. -/
inductive AddressFamily : Type
  | INET
  | INET6
  | UNIX
  | other (n : Nat)
deriving DecidableEq, Repr

/-- Socket types (`rustix::net::SocketType`); `other n` stands for any
further numeric type such as raw or seqpacket. -/
inductive SocketType : Type
  | STREAM
  | DGRAM
  | other (n : Nat)
deriving DecidableEq, Repr

/-- File types distinguished by `FileType::from_raw_mode(st_mode)`. -/
inductive FileType : Type
  | Socket
  | RegularFile
  | Directory
  | Fifo
  | otherKind (n : Nat)
deriving DecidableEq, Repr

/-- The OS-observable facts about one descriptor that the converter
queries, each introspection call modelled by an `Option` (`none` is the
errno branch), plus the close-on-exec flag mutated by `fcntl_setfd` and
whether that call would succeed (with the errno text it reports when it
fails). -/
structure FdState : Type where
  fstatRes : Option FileType
  socknameRes : Option AddressFamily
  sockTypeRes : Option SocketType
  setfdOk : Bool
  setfdErr : String
  cloexec : Bool
deriving DecidableEq, Repr

/-- Kinds used by `io::Error::new` in the source. -/
inductive IOErrorKind : Type
  | invalidInput
  | otherError
deriving DecidableEq, Repr

/-- A structured error: the `io::ErrorKind` plus the formatted message. -/
structure IOError : Type where
  kind : IOErrorKind
  msg : String
deriving DecidableEq, Repr

/-- The typed destination handle: every conversion target
(`TcpListener`, `UnixListener`, `UdpSocket`, `UnixDatagram`, or a custom
`T: FromFd`) wraps ownership of one raw descriptor; `FromFd::from_fd` is
the wrapping move. -/
structure Handle : Type where
  fd : Int
deriving DecidableEq, Repr

/-- Debug rendering of an `OwnedFd` (the `{:?}` format in the source):
it displays the raw descriptor number. -/
def fdDebug (fd : Int) : String :=
  "OwnedFd \x7b fd: " ++ toString fd ++ " \x7d"

/-- Message of the first error in `validate_socket`. -/
def notASocketMsg (fd : Int) : String :=
  "fd " ++ fdDebug fd ++ " is not a socket"

/-- Message of the second error in `validate_socket`. -/
def notValidMsg (fd : Int) (hint : String) : String :=
  "fd " ++ fdDebug fd ++ " is not a valid " ++ hint

/-- Message of the error in `mark_cloexec` (`as_raw_fd` formats the
plain number; the errno is rendered inside the parentheses). -/
def cloexecMsg (fd : Int) (err : String) : String :=
  "fd " ++ toString fd ++ " cannot be marked as FD_CLOEXEC (" ++ err ++ ")"

/-- Model of `is_sock`: `fstat` succeeded and the file type of `st_mode`
is `Socket`; a failing `fstat` is `unwrap_or(false)`. -/
def is_sock (st : FdState) : Bool :=
  (st.fstatRes.map (fun ft => decide (ft = FileType.Socket))).getD false

/-- Model of `validate_socket`: reject non-sockets, then check the
socket type and the address family from `getsockname`, with the
IPv6-for-expected-IPv4 leniency; a failing `getsockname` is
`unwrap_or(false)`, a failing `get_socket_type` makes the
`== Ok(sock_type)` comparison false. Pure inspection: the state is not
changed, and every error carries the descriptor back. -/
def validate_socket (fd : Int) (st : FdState) (sock_fam : AddressFamily)
    (sock_type : SocketType) (hint : String) : Except (IOError × Int) Int :=
  if ¬ is_sock st = true then
    .error (⟨IOErrorKind.invalidInput, notASocketMsg fd⟩, fd)
  else
    let is_valid : Bool :=
      (st.socknameRes.map (fun af =>
        decide (st.sockTypeRes = some sock_type) &&
          (decide (af = sock_fam) ||
            (decide (af = AddressFamily.INET6) &&
              decide (sock_fam = AddressFamily.INET))))).getD false
    if ¬ is_valid = true then
      .error (⟨IOErrorKind.invalidInput, notValidMsg fd hint⟩, fd)
    else
      .ok fd

/-- Model of `mark_cloexec`: `fcntl_setfd(fd, CLOEXEC)` sets the flag on
success; on failure the flag is untouched and the error carries the
descriptor back. Returns the result together with the descriptor state. -/
def mark_cloexec (fd : Int) (st : FdState) :
    Except (IOError × Int) Int × FdState :=
  if st.setfdOk then (.ok fd, { st with cloexec := true })
  else (.error (⟨IOErrorKind.otherError, cloexecMsg fd st.setfdErr⟩, fd), st)

/-- Model of `make_custom`: `validate_socket(..).and_then(mark_cloexec).map(from_fd)`. -/
def make_custom (fd : Int) (st : FdState) (sock_fam : AddressFamily)
    (sock_type : SocketType) (hint : String) :
    Except (IOError × Int) Handle × FdState :=
  match validate_socket fd st sock_fam sock_type hint with
  | .error e => (.error e, st)
  | .ok fd1 =>
    match mark_cloexec fd1 st with
    | (.error e, st2) => (.error e, st2)
    | (.ok fd2, st2) => (.ok ⟨fd2⟩, st2)

/-- Model of `make_tcp_listener`: validate as an `INET` `STREAM` socket
with hint text "unix stream socket", then harden and materialize. -/
def make_tcp_listener (fd : Int) (st : FdState) :
    Except (IOError × Int) Handle × FdState :=
  match validate_socket fd st AddressFamily.INET SocketType.STREAM
      "unix stream socket" with
  | .error e => (.error e, st)
  | .ok fd1 =>
    match mark_cloexec fd1 st with
    | (.error e, st2) => (.error e, st2)
    | (.ok fd2, st2) => (.ok ⟨fd2⟩, st2)

/-- Model of `make_unix_listener`: the `?`-style version in the source,
validating as a `UNIX` `STREAM` socket with hint text "unix socket". -/
def make_unix_listener (fd : Int) (st : FdState) :
    Except (IOError × Int) Handle × FdState :=
  match validate_socket fd st AddressFamily.UNIX SocketType.STREAM
      "unix socket" with
  | .error e => (.error e, st)
  | .ok fd1 =>
    match mark_cloexec fd1 st with
    | (.error e, st2) => (.error e, st2)
    | (.ok fd2, st2) => (.ok ⟨fd2⟩, st2)

/-- Model of `make_udp_socket`: validate as an `INET` `DGRAM` socket
with hint text "udp socket". -/
def make_udp_socket (fd : Int) (st : FdState) :
    Except (IOError × Int) Handle × FdState :=
  match validate_socket fd st AddressFamily.INET SocketType.DGRAM
      "udp socket" with
  | .error e => (.error e, st)
  | .ok fd1 =>
    match mark_cloexec fd1 st with
    | (.error e, st2) => (.error e, st2)
    | (.ok fd2, st2) => (.ok ⟨fd2⟩, st2)

/-- Model of `make_unix_datagram`: validate as a `UNIX` `DGRAM` socket
with hint text "unix datagram socket". -/
def make_unix_datagram (fd : Int) (st : FdState) :
    Except (IOError × Int) Handle × FdState :=
  match validate_socket fd st AddressFamily.UNIX SocketType.DGRAM
      "unix datagram socket" with
  | .error e => (.error e, st)
  | .ok fd1 =>
    match mark_cloexec fd1 st with
    | (.error e, st2) => (.error e, st2)
    | (.ok fd2, st2) => (.ok ⟨fd2⟩, st2)

/-! ## String containment, for claims about error messages -/

/-- Whether `pat` occurs as a contiguous substring of `s`, as a
computable scan over the character lists. -/
def listHas : List Char → List Char → Bool
  | [], pat => pat.isEmpty
  | c :: rest, pat => pat.isPrefixOf (c :: rest) || listHas rest pat

/-- String containment used to state that an error message names a
descriptor or a hint. -/
def strHas (s pat : String) : Bool :=
  listHas s.data pat.data

/-! ## Concrete descriptor states used as test vectors -/

/-- An open stream socket bound to an IPv6 address, with a working
`fcntl_setfd` and the close-on-exec flag initially clear. -/
def stIpv6Stream : FdState :=
  ⟨some FileType.Socket, some AddressFamily.INET6, some SocketType.STREAM,
    true, "", false⟩

/-- A regular file: `fstat` succeeds but the file type is not a socket. -/
def stRegularFile : FdState :=
  ⟨some FileType.RegularFile, none, none, true, "", false⟩

/-- A descriptor on which `fstat` itself fails (for example a closed
descriptor number). -/
def stBadFstat : FdState :=
  ⟨none, none, none, true, "", false⟩

/-- An open local-domain datagram socket with a working `fcntl_setfd`
and the close-on-exec flag initially clear. -/
def stUnixDgram : FdState :=
  ⟨some FileType.Socket, some AddressFamily.UNIX, some SocketType.DGRAM,
    true, "", false⟩

end ListenFd

namespace ListenFd

/-! ## Helper lemmas about the environment model -/

theorem envGet_envRemove_self (e : Env) (k : String) :
    envGet (envRemove e k) k = none := by
  induction e with
  | nil => rfl
  | cons p rest ih =>
    unfold envRemove at ih ⊢
    rw [List.filter_cons]
    by_cases h : p.1 = k
    · rw [if_neg (by simp [h])]
      exact ih
    · rw [if_pos (by simp [h])]
      unfold envGet at ih ⊢
      rw [List.find?_cons_of_neg _ (by simp [h])]
      exact ih

theorem envGet_envRemove_ne (e : Env) (k j : String) (h : ¬ k = j) :
    envGet (envRemove e j) k = envGet e k := by
  induction e with
  | nil => rfl
  | cons p rest ih =>
    unfold envRemove at ih ⊢
    rw [List.filter_cons]
    by_cases hj : p.1 = j
    · have hk : ¬ p.1 = k := fun hk => h (hk ▸ hj)
      rw [if_neg (by simp [hj])]
      rw [ih]
      unfold envGet
      rw [List.find?_cons_of_neg _ (by simp [hk])]
    · rw [if_pos (by simp [hj])]
      unfold envGet at ih ⊢
      by_cases hk : p.1 = k
      · rw [List.find?_cons_of_pos _ (by simp [hk]),
          List.find?_cons_of_pos _ (by simp [hk])]
      · rw [List.find?_cons_of_neg _ (by simp [hk]),
          List.find?_cons_of_neg _ (by simp [hk])]
        exact ih

/-- Unfolding of `get_fds` when the count signal is absent or does not
parse. -/
theorem get_fds_of_unparsable (s : SysEnv)
    (h : (envGet s.vars "LISTEN_FDS").bind parseI32 = none) :
    get_fds s = (none, s) := by
  unfold get_fds
  rw [h]

/-- Unfolding of `get_fds` when the count signal parses. -/
theorem get_fds_of_parsed (s : SysEnv) (count : Int)
    (h : (envGet s.vars "LISTEN_FDS").bind parseI32 = some count) :
    get_fds s =
      (if listenPidOk s then some (listenRange count) else none,
        ⟨envRemove (envRemove s.vars "LISTEN_PID") "LISTEN_FDS", s.pid⟩) := by
  unfold get_fds
  rw [h]
  by_cases hok : listenPidOk s <;> simp [hok]

/-- After any call of `get_fds`, the count signal no longer parses:
either it never parsed (state unchanged), or it was removed. -/
theorem get_fds_post_unparsable (s : SysEnv) :
    (envGet (get_fds s).2.vars "LISTEN_FDS").bind parseI32 = none := by
  cases h : (envGet s.vars "LISTEN_FDS").bind parseI32 with
  | none => rw [get_fds_of_unparsable s h]; exact h
  | some count =>
    rw [get_fds_of_parsed s count h]
    by_cases hok : listenPidOk s <;>
      simp [hok, envGet_envRemove_self]

/-! ## Helper lemmas about wrapping and the descriptor range -/

theorem wrap32_eq_self (n : Int) (h1 : -(2 ^ 31) ≤ n) (h2 : n ≤ 2 ^ 31 - 1) :
    wrap32 n = n := by
  unfold wrap32
  have : (n + 2 ^ 31) % 2 ^ 32 = n + 2 ^ 31 :=
    Int.emod_eq_of_lt (by omega) (by omega)
  omega

theorem listenRange_length (count : Int) (h : 0 ≤ count) :
    (listenRange count).length = count.toNat := by
  unfold listenRange
  by_cases hz : count ≤ 0
  · have : count = 0 := le_antisymm hz h
    simp [this]
  · simp [hz]

theorem listenRange_get (count : Int) (h0 : 0 ≤ count)
    (hhi : count ≤ 2147483645) (i : Nat)
    (hi : i < (listenRange count).length) :
    (listenRange count).get ⟨i, hi⟩ = 3 + (i : Int) := by
  have hlen : (listenRange count).length = count.toNat :=
    listenRange_length count h0
  have hi2 : i < count.toNat := hlen ▸ hi
  have hpos : ¬ count ≤ 0 := by
    by_contra hc
    have : count.toNat = 0 := by omega
    omega
  have hval : (listenRange count).get ⟨i, hi⟩ = wrap32 (3 + (i : Int)) := by
    simp only [listenRange, if_neg hpos, List.get_eq_getElem]
    rw [List.getElem_map]
    congr 2
    rw [List.getElem_range]
  rw [hval]
  apply wrap32_eq_self
  · omega
  · have : (i : Int) < count := by
      omega
    omega

/-! ## Helper lemmas about pid parsing and authorization -/

theorem parseNonZeroI32_eq_some (v : String) (p : Int) (hp : ¬ p = 0) :
    parseNonZeroI32 v = some p ↔ parseI32 v = some p := by
  unfold parseNonZeroI32
  cases h : parseI32 v with
  | none => simp
  | some n =>
    by_cases hz : n = 0
    · simp [hz, Option.bind]
      intro hh
      exact absurd hh.symm hp
    · simp [Option.bind, hz]

/-- The authorization check of `get_fds`, stated as the spec states it:
the target signal is absent, or empty, or parses to the current pid. -/
theorem listenPidOk_iff (s : SysEnv) (hp : 0 < s.pid) :
    listenPidOk s = true ↔
      (envGet s.vars "LISTEN_PID" = none ∨
        envGet s.vars "LISTEN_PID" = some "" ∨
        (∃ v, envGet s.vars "LISTEN_PID" = some v ∧
          parseI32 v = some s.pid)) := by
  have hp0 : ¬ s.pid = 0 := by omega
  unfold listenPidOk
  cases h : envGet s.vars "LISTEN_PID" with
  | none => simp
  | some v =>
    by_cases hv : v = ""
    · subst hv
      simp
    · simp only [hv]
      rw [decide_eq_true_eq, parseNonZeroI32_eq_some v s.pid hp0]
      constructor
      · intro hparse
        exact Or.inr (Or.inr ⟨v, rfl, hparse⟩)
      · rintro (hh | hh | ⟨w, hw, hparse⟩)
        · exact absurd hh (by simp)
        · have : v = "" := by injection hh
          exact absurd this hv
        · have hw2 : v = w := by injection hw
          rw [hw2]
          exact hparse

/-! ## Helper lemmas about string containment -/

theorem listHas_of_isPrefixOf (s pat : List Char)
    (h : pat.isPrefixOf s = true) : listHas s pat = true := by
  cases s with
  | nil =>
    have : pat <+: [] := List.isPrefixOf_iff_prefix.mp h
    have : pat = [] := List.prefix_nil.mp this
    simp [listHas, this]
  | cons c rest =>
    unfold listHas
    rw [h]
    rfl

theorem listHas_middle (l pat r : List Char) :
    listHas (l ++ pat ++ r) pat = true := by
  induction l with
  | nil =>
    apply listHas_of_isPrefixOf
    rw [List.isPrefixOf_iff_prefix]
    simp
  | cons c lrest ih =>
    have : (c :: lrest) ++ pat ++ r = c :: (lrest ++ pat ++ r) := by simp
    rw [this]
    unfold listHas
    rw [ih]
    simp

/-- The not-a-socket message names the descriptor number. -/
theorem notASocketMsg_names_fd (fd : Int) :
    strHas (notASocketMsg fd) (toString fd) = true := by
  unfold strHas notASocketMsg fdDebug
  have : ("fd " ++ ("OwnedFd \x7b fd: " ++ toString fd ++ " \x7d") ++
        " is not a socket").data =
      ("fd " ++ "OwnedFd \x7b fd: ").data ++ (toString fd).data ++
        (" \x7d" ++ " is not a socket").data := by
    simp [String.data_append]
  rw [this]
  exact listHas_middle _ _ _

/-- The invalid-socket message names the descriptor number. -/
theorem notValidMsg_names_fd (fd : Int) (hint : String) :
    strHas (notValidMsg fd hint) (toString fd) = true := by
  unfold strHas notValidMsg fdDebug
  have : ("fd " ++ ("OwnedFd \x7b fd: " ++ toString fd ++ " \x7d") ++
        " is not a valid " ++ hint).data =
      ("fd " ++ "OwnedFd \x7b fd: ").data ++ (toString fd).data ++
        (" \x7d" ++ " is not a valid " ++ hint).data := by
    simp [String.data_append]
  rw [this]
  exact listHas_middle _ _ _

/-- The invalid-socket message names the hint text. -/
theorem notValidMsg_names_hint (fd : Int) (hint : String) :
    strHas (notValidMsg fd hint) hint = true := by
  unfold strHas notValidMsg
  have : ("fd " ++ fdDebug fd ++ " is not a valid " ++ hint).data =
      ("fd " ++ fdDebug fd ++ " is not a valid ").data ++ hint.data ++
        ("" : String).data := by
    simp [String.data_append]
  rw [this]
  exact listHas_middle _ _ _

/-! ## Helper lemmas about the converter -/

/-- The three possible results of `validate_socket`: success with the
input descriptor, or one of the two errors, each carrying it back; the
not-a-socket error happens only for non-sockets. -/
theorem validate_socket_cases (fd : Int) (st : FdState)
    (sock_fam : AddressFamily) (sock_type : SocketType) (hint : String) :
    validate_socket fd st sock_fam sock_type hint = .ok fd ∨
    (is_sock st = false ∧
      validate_socket fd st sock_fam sock_type hint =
        .error (⟨IOErrorKind.invalidInput, notASocketMsg fd⟩, fd)) ∨
    validate_socket fd st sock_fam sock_type hint =
      .error (⟨IOErrorKind.invalidInput, notValidMsg fd hint⟩, fd) := by
  unfold validate_socket
  split
  · refine Or.inr (Or.inl ⟨?_, rfl⟩)
    rename_i hcond
    simpa using hcond
  · dsimp only
    split
    · exact Or.inr (Or.inr rfl)
    · exact Or.inl rfl

/-! ## Claim C1 -/

/-- Claim C1, counterexample: with LISTEN_FDS set to "-1" (which does
not denote a non-negative integer) and LISTEN_PID absent, get_fds does
not return None: it parses -1 as an i32 and returns Some of an empty
descriptor list. -/
theorem get_fds_negative_count_cex :
    (get_fds ⟨[("LISTEN_FDS", "-1")], 1⟩).1 = some [] ∧
    ¬ (get_fds ⟨[("LISTEN_FDS", "-1")], 1⟩).1 = none := by
  constructor <;> decide

/-- Claim C1 (amended): if LISTEN_FDS is absent or its value does not
parse as a signed 32-bit integer, get_fds returns None and constructs
no descriptors; a value parsing to a negative integer is accepted, and
when authorized yields Some of an empty descriptor list. -/
theorem get_fds_unparsable_returns_none (s : SysEnv) :
    ((envGet s.vars "LISTEN_FDS").bind parseI32 = none →
      (get_fds s).1 = none) ∧
    (∀ count : Int, (envGet s.vars "LISTEN_FDS").bind parseI32 = some count →
      count < 0 → listenPidOk s = true → (get_fds s).1 = some []) := by
  constructor
  · intro h
    rw [get_fds_of_unparsable s h]
  · intro count h hneg hok
    rw [get_fds_of_parsed s count h]
    have : listenRange count = [] := by
      unfold listenRange
      rw [if_pos (le_of_lt hneg)]
    simp [hok, this]

/-- Claim C1, witness: a concrete unparsable LISTEN_FDS value yields
None, and a concrete negative value yields Some empty list. -/
theorem get_fds_unparsable_returns_none_wit :
    (get_fds ⟨[("LISTEN_FDS", "x"), ("LISTEN_PID", "5")], 5⟩).1 = none ∧
    (get_fds ⟨[("LISTEN_FDS", "-7")], 5⟩).1 = some [] :=
  ⟨(get_fds_unparsable_returns_none _).1 (by decide),
    (get_fds_unparsable_returns_none _).2 (-7) (by decide) (by decide)
      (by decide)⟩

/-! ## Claim C2 -/

/-- Claim C2, counterexample: with LISTEN_FDS set to the unparsable
value "abc" and LISTEN_PID set to "7", get_fds leaves both variables
in place: the erasure only happens when LISTEN_FDS parses. -/
theorem get_fds_erasure_cex :
    envGet (get_fds ⟨[("LISTEN_FDS", "abc"), ("LISTEN_PID", "7")], 7⟩).2.vars
        "LISTEN_PID" = some "7" ∧
    envGet (get_fds ⟨[("LISTEN_FDS", "abc"), ("LISTEN_PID", "7")], 7⟩).2.vars
        "LISTEN_FDS" = some "abc" ∧
    ¬ envGet (get_fds ⟨[("LISTEN_FDS", "abc"), ("LISTEN_PID", "7")], 7⟩).2.vars
        "LISTEN_PID" = none := by
  refine ⟨?_, ?_, ?_⟩ <;> decide

/-- Claim C2 (amended): whenever LISTEN_FDS parses as a signed 32-bit
integer, get_fds unsets both LISTEN_FDS and LISTEN_PID before
returning, regardless of the authorization outcome; when LISTEN_FDS is
absent or unparsable, the process state is left unchanged. -/
theorem get_fds_erases_iff_parsed (s : SysEnv) :
    (∀ count : Int, (envGet s.vars "LISTEN_FDS").bind parseI32 = some count →
      envGet (get_fds s).2.vars "LISTEN_FDS" = none ∧
      envGet (get_fds s).2.vars "LISTEN_PID" = none) ∧
    ((envGet s.vars "LISTEN_FDS").bind parseI32 = none →
      (get_fds s).2 = s) := by
  constructor
  · intro count h
    rw [get_fds_of_parsed s count h]
    constructor
    · exact envGet_envRemove_self _ _
    · rw [envGet_envRemove_ne _ _ _ (by decide)]
      exact envGet_envRemove_self _ _
  · intro h
    rw [get_fds_of_unparsable s h]

/-- Claim C2, witness: in an unauthorized handoff (LISTEN_PID names a
different process) both variables are still erased. -/
theorem get_fds_erases_iff_parsed_wit :
    envGet (get_fds ⟨[("LISTEN_FDS", "3"), ("LISTEN_PID", "9")], 7⟩).2.vars
        "LISTEN_FDS" = none ∧
    envGet (get_fds ⟨[("LISTEN_FDS", "3"), ("LISTEN_PID", "9")], 7⟩).2.vars
        "LISTEN_PID" = none :=
  (get_fds_erases_iff_parsed _).1 3 (by decide)

/-! ## Claim C3 -/

/-- Claim C3 (confirmed): with a parsable LISTEN_FDS count and a
genuine (positive) process id, get_fds claims the descriptors exactly
when LISTEN_PID is absent, or present but empty, or parses to the
current pid; any other value makes it return None. -/
theorem get_fds_claims_iff_pid_authorized (s : SysEnv) (count : Int)
    (hpid : 0 < s.pid)
    (hfds : (envGet s.vars "LISTEN_FDS").bind parseI32 = some count) :
    ((get_fds s).1 = some (listenRange count) ↔
      (envGet s.vars "LISTEN_PID" = none ∨
        envGet s.vars "LISTEN_PID" = some "" ∨
        (∃ v, envGet s.vars "LISTEN_PID" = some v ∧
          parseI32 v = some s.pid))) ∧
    (¬ (envGet s.vars "LISTEN_PID" = none ∨
        envGet s.vars "LISTEN_PID" = some "" ∨
        (∃ v, envGet s.vars "LISTEN_PID" = some v ∧
          parseI32 v = some s.pid)) →
      (get_fds s).1 = none) := by
  rw [get_fds_of_parsed s count hfds, ← listenPidOk_iff s hpid]
  by_cases hok : listenPidOk s = true
  · simp [hok]
  · simp [hok]

/-- Claim C3, witness: LISTEN_PID equal to the pid authorizes the
claim on a concrete environment. -/
theorem get_fds_claims_iff_pid_authorized_wit :
    (get_fds ⟨[("LISTEN_FDS", "3"), ("LISTEN_PID", "7")], 7⟩).1 =
      some (listenRange 3) :=
  ((get_fds_claims_iff_pid_authorized _ 3 (by decide) (by decide)).1).mpr
    (Or.inr (Or.inr ⟨"7", by decide, by decide⟩))

/-! ## Claim C4 -/

/-- Claim C4, counterexample: with LISTEN_FDS declaring the count
2147483647 and an authorized handoff, get_fds returns a list whose
entry at offset 2147483646 is the wrapped value -2147483647, not
3 + 2147483646: the i32 addition 3 + offset overflows. -/
theorem get_fds_count_overflow_cex :
    (get_fds ⟨[("LISTEN_FDS", "2147483647")], 1⟩).1 =
      some (listenRange 2147483647) ∧
    (listenRange 2147483647).length = 2147483647 ∧
    (listenRange 2147483647).getD 2147483646 0 = -2147483647 ∧
    ¬ (-2147483647 : Int) = 3 + (2147483646 : Int) := by
  refine ⟨?_, ?_, ?_, by decide⟩
  · rw [get_fds_of_parsed _ 2147483647 (by decide)]
    have hok : listenPidOk ⟨[("LISTEN_FDS", "2147483647")], 1⟩ = true := by
      decide
    simp [hok]
  · rw [listenRange_length _ (by norm_num)]
    rfl
  · rw [List.getD_eq_getElem?_getD]
    unfold listenRange
    rw [if_neg (by norm_num)]
    rw [List.getElem?_map, List.getElem?_range (by decide)]
    decide

/-- Claim C4 (amended): for every authorized acquisition whose declared
count N satisfies 0 <= N <= 2147483645 (so that no descriptor number
3 + offset overflows an i32), get_fds returns exactly N descriptors
whose numeric values are 3 + offset for each offset below N, in order;
for the two larger representable counts the last descriptor values wrap
around the i32 range instead. -/
theorem get_fds_authorized_yields_offsets (s : SysEnv) (count : Int)
    (hfds : (envGet s.vars "LISTEN_FDS").bind parseI32 = some count)
    (hok : listenPidOk s = true) (h0 : 0 ≤ count)
    (hhi : count ≤ 2147483645) :
    (get_fds s).1 = some (listenRange count) ∧
    (listenRange count).length = count.toNat ∧
    (∀ i : Nat, ∀ hi : i < (listenRange count).length,
      (listenRange count).get ⟨i, hi⟩ = 3 + (i : Int)) := by
  refine ⟨?_, listenRange_length count h0, ?_⟩
  · rw [get_fds_of_parsed s count hfds]
    simp [hok]
  · intro i hi
    exact listenRange_get count h0 hhi i hi

/-- Claim C4, witness: LISTEN_FDS set to "2" with a matching
LISTEN_PID yields exactly the two descriptors 3 and 4. -/
theorem get_fds_authorized_yields_offsets_wit :
    ((get_fds ⟨[("LISTEN_FDS", "2"), ("LISTEN_PID", "42")], 42⟩).1 =
      some (listenRange 2) ∧
      (listenRange 2).length = (2 : Int).toNat ∧
      (∀ i : Nat, ∀ hi : i < (listenRange 2).length,
        (listenRange 2).get ⟨i, hi⟩ = 3 + (i : Int))) ∧
    listenRange 2 = [3, 4] :=
  ⟨get_fds_authorized_yields_offsets _ 2 (by decide) (by decide) (by decide)
      (by decide), by decide⟩

/-! ## Claim C5 -/

/-- After any call of `get_fds` the signal can never parse again, so a
repeat call observes nothing and changes nothing. -/
theorem get_fds_fixpoint (t : SysEnv) :
    get_fds ((get_fds t).2) = (none, (get_fds t).2) :=
  get_fds_of_unparsable _ (get_fds_post_unparsable t)

/-- Claim C5 (confirmed): after one call of get_fds has returned, every
subsequent call in the same process returns None: iterating the state
transition of get_fds at least once always leaves a state in which
get_fds yields None. -/
theorem get_fds_consumed_after_first_call (s : SysEnv) (n : Nat) :
    (get_fds ((fun t => (get_fds t).2)^[n + 1] s)).1 = none := by
  rw [Function.iterate_succ_apply']
  show (get_fds ((get_fds ((fun t => (get_fds t).2)^[n] s)).2)).1 = none
  rw [get_fds_fixpoint]

/-! ## Claim C6 -/

/-- Success condition of `validate_socket` for a descriptor whose
introspection succeeds. -/
theorem validate_socket_ok_iff (fd : Int) (st : FdState)
    (sock_fam : AddressFamily) (sock_type : SocketType) (hint : String)
    (af : AddressFamily) (ty : SocketType)
    (hsock : is_sock st = true)
    (haf : st.socknameRes = some af)
    (hty : st.sockTypeRes = some ty) :
    validate_socket fd st sock_fam sock_type hint = .ok fd ↔
      (ty = sock_type ∧
        (af = sock_fam ∨
          (af = AddressFamily.INET6 ∧ sock_fam = AddressFamily.INET))) := by
  unfold validate_socket
  rw [if_neg (by simp [hsock])]
  dsimp only
  rw [haf, hty]
  by_cases hP : (ty = sock_type ∧
      (af = sock_fam ∨
        (af = AddressFamily.INET6 ∧ sock_fam = AddressFamily.INET)))
  · rw [if_neg (by simp [hP.1, hP.2])]
    simp [hP]
  · rw [if_pos (by simp; tauto)]
    simp [hP]

/-- Claim C6 (confirmed): for an open socket descriptor whose identity
is observable, validation succeeds exactly when the observed socket
type equals the expected type and the observed family equals the
expected family, except that an expected family of IPv4 also accepts an
actual family of IPv6; any other mismatch is rejected with an error. -/
theorem validate_socket_family_type_policy (fd : Int) (st : FdState)
    (sock_fam : AddressFamily) (sock_type : SocketType) (hint : String)
    (af : AddressFamily) (ty : SocketType)
    (hsock : is_sock st = true)
    (haf : st.socknameRes = some af)
    (hty : st.sockTypeRes = some ty) :
    ((validate_socket fd st sock_fam sock_type hint = .ok fd) ↔
      (ty = sock_type ∧
        (af = sock_fam ∨
          (af = AddressFamily.INET6 ∧ sock_fam = AddressFamily.INET)))) ∧
    (¬ (ty = sock_type ∧
        (af = sock_fam ∨
          (af = AddressFamily.INET6 ∧ sock_fam = AddressFamily.INET))) →
      ∃ e, validate_socket fd st sock_fam sock_type hint =
        .error (e, fd)) := by
  have hiff := validate_socket_ok_iff fd st sock_fam sock_type hint af ty
    hsock haf hty
  refine ⟨hiff, fun hP => ?_⟩
  rcases validate_socket_cases fd st sock_fam sock_type hint
    with hok | ⟨_, herr⟩ | herr
  · exact absurd (hiff.mp hok) hP
  · exact ⟨_, herr⟩
  · exact ⟨_, herr⟩

/-- Claim C6, witness: an IPv6 stream socket is accepted for expected
family IPv4 with expected type stream, and rejected for expected type
datagram. -/
theorem validate_socket_family_type_policy_wit :
    (validate_socket 5 stIpv6Stream AddressFamily.INET SocketType.STREAM
        "unix stream socket" = .ok 5) ∧
    (∃ e, validate_socket 5 stIpv6Stream AddressFamily.INET SocketType.DGRAM
        "udp socket" = .error (e, 5)) :=
  ⟨((validate_socket_family_type_policy 5 stIpv6Stream AddressFamily.INET
      SocketType.STREAM "unix stream socket" AddressFamily.INET6
      SocketType.STREAM (by decide) (by decide) (by decide)).1).mpr
      ⟨rfl, Or.inr ⟨rfl, rfl⟩⟩,
    (validate_socket_family_type_policy 5 stIpv6Stream AddressFamily.INET
      SocketType.DGRAM "udp socket" AddressFamily.INET6
      SocketType.STREAM (by decide) (by decide) (by decide)).2
      (by simp)⟩

/-! ## Claim C7 -/

/-- A successful validation needs every introspection query to have
succeeded: failing queries fail closed. -/
theorem validate_socket_ok_requires (fd : Int) (st : FdState)
    (sock_fam : AddressFamily) (sock_type : SocketType) (hint : String)
    (h : validate_socket fd st sock_fam sock_type hint = .ok fd) :
    ¬ st.fstatRes = none ∧ ¬ st.socknameRes = none ∧
      ¬ st.sockTypeRes = none := by
  unfold validate_socket at h
  refine ⟨?_, ?_, ?_⟩ <;> intro hnone
  · rw [if_pos (by simp [is_sock, hnone])] at h
    exact absurd h (by simp)
  · split at h
    · exact absurd h (by simp)
    · rw [hnone] at h
      simp at h
  · split at h
    · exact absurd h (by simp)
    · rw [hnone] at h
      cases hsn : st.socknameRes with
      | none =>
        rw [hsn] at h
        simp at h
      | some af =>
        rw [hsn] at h
        simp at h

/-- Claim C7 (confirmed): every conversion failure returns the error
paired with the unconsumed original descriptor and leaves the
descriptor state untouched, and any introspection failure (fstat,
getsockname or get_socket_type) yields rejection, never success. -/
theorem conversion_failure_returns_descriptor (fd : Int) (st : FdState)
    (sock_fam : AddressFamily) (sock_type : SocketType) (hint : String) :
    (∀ e fd2 st2,
      make_custom fd st sock_fam sock_type hint = (.error (e, fd2), st2) →
      fd2 = fd ∧ st2 = st) ∧
    ((st.fstatRes = none ∨ st.socknameRes = none ∨ st.sockTypeRes = none) →
      ∃ e, (make_custom fd st sock_fam sock_type hint).1 =
        .error (e, fd)) := by
  constructor
  · intro e fd2 st2 hmk
    unfold make_custom at hmk
    rcases validate_socket_cases fd st sock_fam sock_type hint
      with hok | ⟨_, herr⟩ | herr
    · rw [hok] at hmk
      unfold mark_cloexec at hmk
      dsimp only at hmk
      by_cases hset : st.setfdOk = true
      · rw [if_pos hset] at hmk
        dsimp only at hmk
        exact absurd hmk (by simp)
      · rw [if_neg hset] at hmk
        dsimp only at hmk
        injection hmk with h1 h2
        injection h1 with h3
        injection h3 with h4 h5
        exact ⟨h5.symm, h2.symm⟩
    · rw [herr] at hmk
      injection hmk with h1 h2
      injection h1 with h3
      injection h3 with h4 h5
      exact ⟨h5.symm, h2.symm⟩
    · rw [herr] at hmk
      injection hmk with h1 h2
      injection h1 with h3
      injection h3 with h4 h5
      exact ⟨h5.symm, h2.symm⟩
  · intro hins
    rcases validate_socket_cases fd st sock_fam sock_type hint
      with hok | ⟨_, herr⟩ | herr
    · have hreq := validate_socket_ok_requires fd st sock_fam sock_type
        hint hok
      rcases hins with h1 | h2 | h3
      · exact absurd h1 hreq.1
      · exact absurd h2 hreq.2.1
      · exact absurd h3 hreq.2.2
    · refine ⟨⟨IOErrorKind.invalidInput, notASocketMsg fd⟩, ?_⟩
      unfold make_custom
      rw [herr]
    · refine ⟨⟨IOErrorKind.invalidInput, notValidMsg fd hint⟩, ?_⟩
      unfold make_custom
      rw [herr]

/-- Claim C7, witness: on a descriptor whose fstat query fails, the
conversion is rejected and the error carries the descriptor back. -/
theorem conversion_failure_returns_descriptor_wit :
    ∃ e, (make_custom 7 stBadFstat AddressFamily.INET SocketType.STREAM
        "unix stream socket").1 = .error (e, 7) :=
  (conversion_failure_returns_descriptor 7 stBadFstat AddressFamily.INET
    SocketType.STREAM "unix stream socket").2 (Or.inl rfl)

/-! ## Claim C8 -/

/-- Claim C8, counterexample: validating a regular file with hint text
"udp socket" fails with the not-a-socket error, whose message names the
descriptor but does not name the hint text. -/
theorem validate_socket_message_cex :
    validate_socket 7 stRegularFile AddressFamily.INET SocketType.DGRAM
        "udp socket" =
      .error (⟨IOErrorKind.invalidInput, notASocketMsg 7⟩, 7) ∧
    strHas (notASocketMsg 7) "udp socket" = false ∧
    strHas (notASocketMsg 7) (toString (7 : Int)) = true := by
  refine ⟨rfl, ?_, ?_⟩ <;> decide

/-- Claim C8 (amended): every validation failure produces a message
naming the offending descriptor; the message of a failure on a
descriptor that is a socket (an identity mismatch) additionally names
the expected kind given by the hint text, but the not-a-socket message
does not mention the hint. -/
theorem validate_socket_message_naming (fd : Int) (st : FdState)
    (sock_fam : AddressFamily) (sock_type : SocketType) (hint : String)
    (e : IOError) (fd2 : Int)
    (h : validate_socket fd st sock_fam sock_type hint = .error (e, fd2)) :
    strHas e.msg (toString fd) = true ∧
    (is_sock st = true → strHas e.msg hint = true) := by
  rcases validate_socket_cases fd st sock_fam sock_type hint
    with hok | ⟨hns, herr⟩ | herr
  · rw [hok] at h
    exact absurd h (by simp)
  · rw [herr] at h
    injection h with h1
    injection h1 with h2 h3
    rw [← h2]
    refine ⟨notASocketMsg_names_fd fd, fun hsock => ?_⟩
    rw [hsock] at hns
    exact absurd hns (by simp)
  · rw [herr] at h
    injection h with h1
    injection h1 with h2 h3
    rw [← h2]
    exact ⟨notValidMsg_names_fd fd hint,
      fun _ => notValidMsg_names_hint fd hint⟩

/-- Claim C8, witness: an identity-mismatch failure on a concrete unix
datagram socket names both the descriptor and the hint text. -/
theorem validate_socket_message_naming_wit :
    strHas (IOError.mk IOErrorKind.invalidInput
        (notValidMsg 9 "unix stream socket")).msg (toString (9 : Int)) =
      true ∧
    (is_sock stUnixDgram = true →
      strHas (IOError.mk IOErrorKind.invalidInput
        (notValidMsg 9 "unix stream socket")).msg "unix stream socket" =
        true) :=
  validate_socket_message_naming 9 stUnixDgram AddressFamily.INET
    SocketType.STREAM "unix stream socket"
    (IOError.mk IOErrorKind.invalidInput
      (notValidMsg 9 "unix stream socket")) 9 rfl

/-! ## Claim C9 -/

/-- Claim C9 (confirmed): the close-on-exec flag is set only after
validation succeeds (a validation failure leaves the descriptor state
untouched); after validation and hardening both succeed, the
materialization into the typed handle happens unconditionally and
cannot fail; and every successfully returned handle owns the same
underlying descriptor with the close-on-exec flag set. -/
theorem make_custom_hardening_order (fd : Int) (st : FdState)
    (sock_fam : AddressFamily) (sock_type : SocketType) (hint : String) :
    (∀ e, validate_socket fd st sock_fam sock_type hint = .error e →
      make_custom fd st sock_fam sock_type hint = (.error e, st)) ∧
    (validate_socket fd st sock_fam sock_type hint = .ok fd →
      st.setfdOk = true →
      make_custom fd st sock_fam sock_type hint =
        (.ok ⟨fd⟩, { st with cloexec := true })) ∧
    (∀ h2 st2, make_custom fd st sock_fam sock_type hint = (.ok h2, st2) →
      h2.fd = fd ∧ st2.cloexec = true) := by
  refine ⟨?_, ?_, ?_⟩
  · intro e he
    unfold make_custom
    rw [he]
  · intro hok hset
    unfold make_custom
    rw [hok]
    unfold mark_cloexec
    dsimp only
    rw [if_pos hset]
  · intro h2 st2 hmk
    unfold make_custom at hmk
    rcases validate_socket_cases fd st sock_fam sock_type hint
      with hok | ⟨_, herr⟩ | herr
    · rw [hok] at hmk
      unfold mark_cloexec at hmk
      dsimp only at hmk
      by_cases hset : st.setfdOk = true
      · rw [if_pos hset] at hmk
        dsimp only at hmk
        injection hmk with hh1 hh2
        injection hh1 with hh3
        constructor
        · rw [← hh3]
        · rw [← hh2]
      · rw [if_neg hset] at hmk
        dsimp only at hmk
        exact absurd hmk (by simp)
    · rw [herr] at hmk
      exact absurd hmk (by simp)
    · rw [herr] at hmk
      exact absurd hmk (by simp)

/-- Claim C9, witness: converting a concrete local-domain datagram
socket succeeds and the resulting state has the close-on-exec flag
set while the handle owns the input descriptor. -/
theorem make_custom_hardening_order_wit :
    make_custom 9 stUnixDgram AddressFamily.UNIX SocketType.DGRAM
        "unix datagram socket" =
      (.ok ⟨9⟩, { stUnixDgram with cloexec := true }) :=
  (make_custom_hardening_order 9 stUnixDgram AddressFamily.UNIX
    SocketType.DGRAM "unix datagram socket").2.1 rfl rfl

/-! ## Claim C10 -/

/-- Claim C10 (confirmed): each of the four built-in conversions is
extensionally equal to the generic make_custom at its address family,
socket type and hint text, on every descriptor and descriptor state:
same outcome, same error, same resulting handle and state. -/
theorem builtin_conversions_refine_make_custom (fd : Int) (st : FdState) :
    make_tcp_listener fd st =
      make_custom fd st AddressFamily.INET SocketType.STREAM
        "unix stream socket" ∧
    make_unix_listener fd st =
      make_custom fd st AddressFamily.UNIX SocketType.STREAM
        "unix socket" ∧
    make_udp_socket fd st =
      make_custom fd st AddressFamily.INET SocketType.DGRAM "udp socket" ∧
    make_unix_datagram fd st =
      make_custom fd st AddressFamily.UNIX SocketType.DGRAM
        "unix datagram socket" :=
  ⟨rfl, rfl, rfl, rfl⟩

end ListenFd
